import Mathlib

/-!
Shallow embedding of the LOG4CPP logging facility: the dispatcher core
(src/Src/Logger.cpp) and the rotating file sink
(src/Src/FileRotatingHandler.cpp, src/Includes/FileRotatingHandler.hpp).

Modelling conventions:
- byte counts are modelled as character counts (`String.length`), exact for
  the one-byte-per-character alphabet the programs emit;
- a file's content is an `Option (List String)`: `none` means the path does
  not exist, `some chunks` means the file exists and holds the concatenation
  of `chunks` (each chunk one appended write);
- the filesystem slice a sink touches is its base path plus the numbered
  paths `<base>.j`; the latter are modelled as a map `Nat → Option (List String)`
  (index `j` is the file literally named `<base>.j`, including a possible
  `<base>.0`, which is distinct from the base path itself);
- `openable : Bool` models whether the environment lets the base path be
  opened (permissions / existing directory); `std::ofstream::open` in append
  mode succeeds iff `openable`, creating the file when absent and keeping
  existing content otherwise.
-/

-- ===== Logger.hpp: LogLevel enum (declaration order fixes the underlying values) =====

inductive LogLevel where
  | TRACE
  | DEBUG3
  | DEBUG2
  | DEBUG1
  | INFO
  | WARN
  | ERROR
deriving DecidableEq, Repr

/-- Underlying integer value of the C++ `enum class LogLevel` (declaration order). -/
def LogLevel.toNat : LogLevel → Nat
  | .TRACE => 0
  | .DEBUG3 => 1
  | .DEBUG2 => 2
  | .DEBUG1 => 3
  | .INFO => 4
  | .WARN => 5
  | .ERROR => 6

/-- The C++ comparison `level < currentLevel` on `enum class` values. -/
def levelLt (a b : LogLevel) : Bool := decide (a.toNat < b.toNat)

/-- Logger.cpp: `levelToString`. -/
def levelToString : LogLevel → String
  | .TRACE => "TRACE"
  | .DEBUG3 => "DEBUG3"
  | .DEBUG2 => "DEBUG2"
  | .DEBUG1 => "DEBUG1"
  | .INFO => "INFO"
  | .WARN => "WARN"
  | .ERROR => "ERROR"

-- ===== Logger.hpp: struct LogEntry =====

structure LogEntry where
  timestamp : String
  level : String
  component : String
  function : String
  lineNumber : Int
  message : String
deriving DecidableEq, Repr

/--
Logger.cpp: `Logger::Impl::writeLog`.  The handlers are the registered sinks;
the result collects, in registration order, the value each invoked sink
produces (an empty list when the record is dropped, i.e. no sink is invoked).
The timestamp string is passed in (the wall clock is ambient state).
-/
def writeLog {α : Type} (componentName : String) (currentLevel : LogLevel)
    (handlers : List (LogEntry → α)) (level : LogLevel)
    (timestamp fn : String) (lineNumber : Int) (message : String) : List α :=
  if levelLt level currentLevel then []
  else
    handlers.map fun h =>
      h { timestamp := timestamp, level := levelToString level,
          component := componentName, function := fn,
          lineNumber := lineNumber, message := message }

-- ===== Logger.cpp: getCurrentTimestamp, sub-second rendering =====

/-- `setfill('0') << setw(3)` applied to a number: zero-pad on the left to width 3. -/
def zeroPad3 (n : Nat) : String :=
  String.mk (List.replicate (3 - (Nat.repr n).length) '0') ++ Nat.repr n

/--
Logger.cpp: `Logger::Impl::getCurrentTimestamp`.  `datePart` stands for the
`put_time(..., "%Y-%m-%d %H:%M:%S")` portion; `usTotal` is the sub-second
sample in microseconds (`0 ≤ usTotal < 1000000`).  The code prints `ms`
before the `setfill('0') << setw(3)` manipulators take effect, so only `us`
is zero-padded.
-/
def getCurrentTimestamp (datePart : String) (usTotal : Nat) : String :=
  datePart ++ "." ++ Nat.repr (usTotal / 1000) ++ zeroPad3 (usTotal % 1000)

/--
Modelled from the spec: the timestamp format the spec asserts, with both the
milliseconds group and the microseconds group as 3-digit zero-padded fields.
-/
def claimedTimestamp (datePart : String) (usTotal : Nat) : String :=
  datePart ++ "." ++ zeroPad3 (usTotal / 1000) ++ zeroPad3 (usTotal % 1000)

-- ===== FileRotatingHandler.cpp: default formatter =====

/-- `std::left << std::setw (w)`: left-justify, filling with spaces on the right. -/
def leftSetw (w : Nat) (t : String) : String :=
  t ++ String.mk (List.replicate (w - t.length) ' ')

/-- FileRotatingHandler.cpp: `FileRotatingHandler::Impl::defaultFormatter`. -/
def defaultFormatter (e : LogEntry) : String :=
  "[" ++ e.timestamp ++ "]" ++ "[" ++ leftSetw 6 e.level ++ "]" ++
    "[" ++ e.component ++ "]" ++
    "[" ++ e.function ++ ":" ++ toString e.lineNumber ++ "] " ++ e.message

/--
FileRotatingHandler.cpp, `Impl` constructor: `if (!formatter) formatter = defaultFormatter;`
— a null `std::function` is replaced by the default formatter.
-/
def chooseFormatter (fmt : Option (LogEntry → String)) : LogEntry → String :=
  match fmt with
  | some f => f
  | none => defaultFormatter

/-- Left-pad with spaces to width `w` (spaces on the left). -/
def padLeftTo (w : Nat) (t : String) : String :=
  String.mk (List.replicate (w - t.length) ' ') ++ t

/--
Modelled from the spec: the default line format as the claim words it —
level field left-padded to width 6, `function:line` field left-padded to
width 20.
-/
def claimedDefaultFormatter (e : LogEntry) : String :=
  "[" ++ e.timestamp ++ "]" ++ "[" ++ padLeftTo 6 e.level ++ "]" ++
    "[" ++ e.component ++ "]" ++
    "[" ++ padLeftTo 20 (e.function ++ ":" ++ toString e.lineNumber) ++ "] " ++ e.message

/-- A field in the rendered line: square brackets around the text. -/
def bracket (t : String) : String := "[" ++ t ++ "]"

/-- The final field of the rendered line: brackets followed by one space. -/
def bracketSp (t : String) : String := "[" ++ t ++ "] "

/--
Modelled from the amended spec wording: `[timestamp][level left-justified
(space-padded on the right) to width 6][component][function:line, unpadded]`
followed by a space and the message.
-/
def amendedDefaultFormatter (e : LogEntry) : String :=
  bracket e.timestamp ++ bracket (leftSetw 6 e.level) ++ bracket e.component ++
    bracketSp (e.function ++ ":" ++ toString e.lineNumber) ++ e.message

-- ===== FileRotatingHandler.cpp: Impl state and rotation =====

/--
State of one `FileRotatingHandler::Impl` together with the filesystem slice
it owns.  `base` is the content of `basePath`; `backup j` is the content of
the path `<basePath>.j`.
-/
structure HandlerState where
  maxFileSize : Nat
  maxBackups : Nat
  openable : Bool
  fileOpen : Bool
  currentSize : Nat
  base : Option (List String)
  backup : Nat → Option (List String)

/--
Outcome oracle for the filesystem calls of one rotation: whether
`std::remove` on the oldest backup fails, whether the shift rename with
source index `i` fails, and whether the final rename of the base file fails.
A failed call leaves the filesystem unchanged (and, per C semantics, reports
failure only through its ignored return value — it does not throw).
-/
structure RotOracle where
  removeFails : Bool
  renameFails : Nat → Bool
  baseRenameFails : Bool

/-- The oracle under which every rename/delete succeeds. -/
def noFail : RotOracle := { removeFails := false, renameFails := fun _ => false, baseRenameFails := false }

/--
One iteration of the shift loop: `if (fileExists(base.i)) rename(base.i, base.(i+1))`.
On success the target is overwritten and the source ceases to exist.
-/
def moveSlot (rf : Nat → Bool) (bk : Nat → Option (List String)) (m : Nat) :
    Nat → Option (List String) :=
  match bk m with
  | some c => if rf m then bk else fun j => if j = m + 1 then some c else if j = m then none else bk j
  | none => bk

/--
The shift loop of `rotate`: `for (int i = n; i >= 1; --i)` renaming backup
`i` to backup `i + 1` (the code runs it with `n = maxBackups - 1`).
-/
def shiftLoop (rf : Nat → Bool) : (Nat → Option (List String)) → Nat → (Nat → Option (List String))
  | bk, 0 => bk
  | bk, n + 1 => shiftLoop rf (moveSlot rf bk (n + 1)) n

/--
FileRotatingHandler.cpp: `FileRotatingHandler::Impl::rotate`, with the rename
and delete outcomes drawn from the oracle `o`.  The second component is the
list of lines the procedure sends to `std::cerr`: the `catch` block is the
only statement that prints there, and it is unreachable because `std::remove`
and `std::rename` are C library calls that signal failure through their
(ignored) return value and never throw a C++ exception — so no diagnostics
are ever emitted.  The final `currentFile.open(basePath, std::ios::app)`
succeeds iff the path is openable; append mode creates the file when absent
and keeps existing content otherwise.
-/
def rotateO (o : RotOracle) (s : HandlerState) : HandlerState × List String :=
  let bkA : Nat → Option (List String) :=
    match s.backup s.maxBackups with
    | some _ => if o.removeFails then s.backup else fun j => if j = s.maxBackups then none else s.backup j
    | none => s.backup
  let bkB := shiftLoop o.renameFails bkA (s.maxBackups - 1)
  let st : Option (List String) × (Nat → Option (List String)) :=
    match s.base with
    | some c =>
      if o.baseRenameFails then (some c, bkB)
      else (none, fun j => if j = 1 then some c else bkB j)
    | none => (none, bkB)
  ({ s with fileOpen := s.openable, currentSize := 0,
            base := if s.openable then some (st.1.getD []) else st.1,
            backup := st.2 }, [])

/-- `rotate` as the code executes it when every filesystem call succeeds. -/
def rotate (s : HandlerState) : HandlerState := (rotateO noFail s).1

/--
FileRotatingHandler.cpp: `FileRotatingHandler::Impl::write` for an already
rendered `formatter(entry)` result `r`.  Returns the new state and whether a
rotation was performed (the Boolean mirrors the taken branch of the
`if (currentSize + logSize > maxFileSize)` test).
-/
def write (s : HandlerState) (r : String) : HandlerState × Bool :=
  let logLine := r ++ "\n"
  let logSize := logLine.length
  let rotated := decide (s.maxFileSize < s.currentSize + logSize)
  let s1 := if rotated then rotate s else s
  if s1.fileOpen then
    ({ s1 with base := some (s1.base.getD [] ++ [logLine]),
               currentSize := s1.currentSize + logSize }, rotated)
  else (s1, rotated)

/--
`write` with the rotation outcomes drawn from an oracle; the second
component is the list of diagnostic lines emitted during the call.
-/
def writeO (o : RotOracle) (s : HandlerState) (r : String) : HandlerState × List String :=
  let logLine := r ++ "\n"
  let logSize := logLine.length
  let p := if s.maxFileSize < s.currentSize + logSize then rotateO o s else (s, [])
  (if p.1.fileOpen then
    { p.1 with base := some (p.1.base.getD [] ++ [logLine]),
               currentSize := p.1.currentSize + logSize }
   else p.1, p.2)

/--
FileRotatingHandler.cpp: `FileRotatingHandler::Impl::openFile` —
`currentSize = 0; if (fileExists(basePath)) currentSize = getFileSize(basePath);`
then open in append mode (`getFileSize` is the `stat` size, i.e. the total
length of the content).
-/
def openFile (s : HandlerState) : HandlerState :=
  { s with fileOpen := s.openable,
           currentSize := match s.base with
             | some cs => (cs.map String.length).sum
             | none => 0,
           base := if s.openable then some (s.base.getD []) else s.base }

/--
FileRotatingHandler.cpp: the `Impl` constructor — store the configuration and
run `openFile()` against the pre-existing filesystem state (`base0`, `bk0`).
-/
def mkHandler (maxSize backups : Nat) (openable : Bool)
    (base0 : Option (List String)) (bk0 : Nat → Option (List String)) : HandlerState :=
  openFile { maxFileSize := maxSize, maxBackups := backups, openable := openable,
             fileOpen := false, currentSize := 0, base := base0, backup := bk0 }

/-- A sequence of `write` calls, in order. -/
def writeAll (s : HandlerState) (rs : List String) : HandlerState :=
  rs.foldl (fun t r => (write t r).1) s

/--
The backup-chain shape: no file exists at `<base>.0` and none beyond
`<base>.K`, so every existing backup is among `<base>.1 .. <base>.K` —
in particular at most `K` backup files exist.
-/
def backupsOnlyIn (K : Nat) (bk : Nat → Option (List String)) : Prop :=
  bk 0 = none ∧ ∀ j, K < j → bk j = none

-- ===== Helper lemmas about the shift loop and rotation =====

theorem moveSlot_ne (rf : Nat → Bool) (bk : Nat → Option (List String)) (m j : Nat)
    (h1 : j ≠ m) (h2 : j ≠ m + 1) : moveSlot rf bk m j = bk j := by
  unfold moveSlot
  cases hbm : bk m with
  | none => rfl
  | some c =>
    by_cases hrf : rf m
    · simp [hrf]
    · simp [hrf, h1, h2]

theorem shiftLoop_untouched (rf : Nat → Bool) (n : Nat) :
    ∀ (bk : Nat → Option (List String)) (j : Nat), j = 0 ∨ n + 1 < j →
    shiftLoop rf bk n j = bk j := by
  induction n with
  | zero => intro bk j _; rfl
  | succ n ih =>
    intro bk j h
    show shiftLoop rf (moveSlot rf bk (n + 1)) n j = bk j
    rw [ih (moveSlot rf bk (n + 1)) j (by omega)]
    exact moveSlot_ne rf bk (n + 1) j (by omega) (by omega)

theorem shiftLoop_congr (rf : Nat → Bool) (bk bk' : Nat → Option (List String))
    (h : ∀ i, bk i = bk' i) (n j : Nat) : shiftLoop rf bk n j = shiftLoop rf bk' n j := by
  rw [funext h]

theorem shiftLoop_allnone (rf : Nat → Bool) (n : Nat) :
    ∀ (bk : Nat → Option (List String)), (∀ i, bk i = none) →
    ∀ j, shiftLoop rf bk n j = none := by
  induction n with
  | zero => intro bk h j; exact h j
  | succ n ih =>
    intro bk h j
    show shiftLoop rf (moveSlot rf bk (n + 1)) n j = none
    refine ih _ (fun i => ?_) j
    simp [moveSlot, h]

theorem shiftLoop_chain (n : Nat) :
    ∀ (bk : Nat → Option (List String)), bk (n + 1) = none →
    ∀ m, 1 ≤ m → m ≤ n →
    shiftLoop (fun _ => false) bk n (m + 1) = bk m := by
  induction n with
  | zero => intro bk _ m h1 h2; omega
  | succ n ih =>
    intro bk htop m h1 h2
    show shiftLoop (fun _ => false) (moveSlot (fun _ => false) bk (n + 1)) n (m + 1) = bk m
    rcases Nat.lt_or_ge m (n + 1) with hm | hm
    · have hb' : (moveSlot (fun _ => false) bk (n + 1)) (n + 1) = none := by
        unfold moveSlot
        cases hx : bk (n + 1) with
        | none => exact hx
        | some c => simp
      rw [ih (moveSlot (fun _ => false) bk (n + 1)) hb' m h1 (by omega)]
      exact moveSlot_ne _ bk (n + 1) m (by omega) (by omega)
    · have hm' : m = n + 1 := by omega
      subst hm'
      rw [shiftLoop_untouched _ _ _ _ (Or.inr (by omega))]
      unfold moveSlot
      cases hx : bk (n + 1) with
      | none =>
        show bk (n + 1 + 1) = none
        exact htop
      | some c => simp

theorem shiftLoop_one (n : Nat) :
    ∀ (bk : Nat → Option (List String)), (n = 0 → bk 1 = none) →
    shiftLoop (fun _ => false) bk n 1 = none := by
  induction n with
  | zero => intro bk h; exact h rfl
  | succ n ih =>
    intro bk h
    show shiftLoop (fun _ => false) (moveSlot (fun _ => false) bk (n + 1)) n 1 = none
    refine ih _ (fun hn => ?_)
    subst hn
    unfold moveSlot
    cases hx : bk 1 with
    | none => exact hx
    | some c => simp

/-- The delete step of `rotate` as a function on the backup map. -/
def delOldest (K : Nat) (bk : Nat → Option (List String)) : Nat → Option (List String) :=
  fun j => if j = K then none else bk j

theorem rotate_spec (s : HandlerState) :
    rotate s = { s with
                 fileOpen := s.openable, currentSize := 0,
                 base := if s.openable then some [] else none,
                 backup := fun j =>
                   (match s.base with
                    | some c => if j = 1 then some c
                        else shiftLoop (fun _ => false) (delOldest s.maxBackups s.backup) (s.maxBackups - 1) j
                    | none => shiftLoop (fun _ => false) (delOldest s.maxBackups s.backup) (s.maxBackups - 1) j) } := by
  obtain ⟨M, K, op, fo, cs, b, bk⟩ := s
  have hsh : ∀ j, shiftLoop (fun _ => false)
      (match bk K with
       | some _ => fun j => if j = K then none else bk j
       | none => bk) (K - 1) j
      = shiftLoop (fun _ => false) (delOldest K bk) (K - 1) j := by
    intro j
    refine shiftLoop_congr _ _ _ (fun i => ?_) _ _
    cases hB : bk K with
    | some c => simp [delOldest]
    | none =>
      simp only [delOldest]
      by_cases hi : i = K
      · subst hi; simp [hB]
      · simp [hi]
  simp only [rotate, rotateO, noFail, Bool.false_eq_true, if_false, ite_false]
  cases b with
  | some c =>
    simp only [HandlerState.mk.injEq, true_and]
    constructor
    · cases op <;> simp
    · funext j
      by_cases hj : j = 1
      · simp [hj]
      · simp only [hj, if_false]
        exact hsh j
  | none =>
    simp only [HandlerState.mk.injEq, true_and]
    constructor
    · cases op <;> simp
    · funext j
      exact hsh j

theorem rotate_fileOpen (s : HandlerState) : (rotate s).fileOpen = s.openable := by
  rw [rotate_spec]

theorem rotate_currentSize (s : HandlerState) : (rotate s).currentSize = 0 := by
  rw [rotate_spec]

theorem rotate_base (s : HandlerState) :
    (rotate s).base = if s.openable then some [] else none := by
  rw [rotate_spec]

theorem rotate_maxBackups (s : HandlerState) : (rotate s).maxBackups = s.maxBackups := by
  rw [rotate_spec]

theorem rotate_backup_one (s : HandlerState) (hK : 1 ≤ s.maxBackups) :
    (rotate s).backup 1 = s.base := by
  rw [rotate_spec]
  cases hsb : s.base with
  | some c => simp
  | none =>
    exact shiftLoop_one (s.maxBackups - 1) _ (fun hn => by
      unfold delOldest
      have hK1 : (1 : Nat) = s.maxBackups := by omega
      simp [← hK1])

theorem rotate_backup_shift (s : HandlerState) (i : Nat) (h1 : 1 ≤ i)
    (h2 : i + 1 ≤ s.maxBackups) : (rotate s).backup (i + 1) = s.backup i := by
  rw [rotate_spec]
  have hchain : shiftLoop (fun _ => false) (delOldest s.maxBackups s.backup)
      (s.maxBackups - 1) (i + 1) = s.backup i := by
    have htop : delOldest s.maxBackups s.backup ((s.maxBackups - 1) + 1) = none := by
      unfold delOldest
      have hke : s.maxBackups - 1 + 1 = s.maxBackups := by omega
      simp [hke]
    rw [shiftLoop_chain (s.maxBackups - 1) _ htop i h1 (by omega)]
    unfold delOldest
    rw [if_neg (by omega)]
  cases hsb : s.base with
  | some c =>
    have hne : ¬ (i + 1 = 1) := by omega
    simp [hne, hchain]
  | none => exact hchain

theorem rotate_backup_other (s : HandlerState) (hK : 1 ≤ s.maxBackups) (j : Nat)
    (hj : j = 0 ∨ s.maxBackups < j) : (rotate s).backup j = s.backup j := by
  rw [rotate_spec]
  have hsh : shiftLoop (fun _ => false) (delOldest s.maxBackups s.backup)
      (s.maxBackups - 1) j = s.backup j := by
    rw [shiftLoop_untouched _ _ _ _ (by omega)]
    unfold delOldest
    rw [if_neg (by omega)]
  cases hsb : s.base with
  | some c =>
    have hne : ¬ (j = 1) := by omega
    simp [hne, hsh]
  | none => exact hsh

theorem rotate_preserves_inv (s : HandlerState) (hK : 1 ≤ s.maxBackups)
    (h : backupsOnlyIn s.maxBackups s.backup) :
    backupsOnlyIn s.maxBackups (rotate s).backup := by
  obtain ⟨h0, hhigh⟩ := h
  constructor
  · rw [rotate_backup_other s hK 0 (Or.inl rfl)]
    exact h0
  · intro j hj
    rw [rotate_backup_other s hK j (Or.inr hj)]
    exact hhigh j hj

theorem rotate_iter_inv (n : Nat) : ∀ s : HandlerState, 1 ≤ s.maxBackups →
    backupsOnlyIn s.maxBackups s.backup →
    backupsOnlyIn s.maxBackups ((rotate)^[n] s).backup := by
  induction n with
  | zero => intro s _ h; exact h
  | succ n ih =>
    intro s hK h
    rw [Function.iterate_succ_apply]
    have hK' : 1 ≤ (rotate s).maxBackups := by rw [rotate_maxBackups]; exact hK
    have h2 : backupsOnlyIn (rotate s).maxBackups (rotate s).backup := by
      rw [rotate_maxBackups]
      exact rotate_preserves_inv s hK h
    have h3 := ih (rotate s) hK' h2
    rw [rotate_maxBackups] at h3
    exact h3

theorem write_snd (s : HandlerState) (r : String) :
    (write s r).2 = decide (s.maxFileSize < s.currentSize + (r.length + 1)) := by
  have hlen : (r ++ "\n").length = r.length + 1 := by
    rw [String.length_append]
    rfl
  simp only [write, hlen]
  split <;> split <;> rfl

theorem write_state_rotating (s : HandlerState) (r : String)
    (h : s.maxFileSize < s.currentSize + (r.length + 1)) (hop : s.openable = true) :
    (write s r).1.base = some [r ++ "\n"] ∧ (write s r).1.currentSize = r.length + 1 := by
  have hlen : (r ++ "\n").length = r.length + 1 := by
    rw [String.length_append]
    rfl
  have hfo : (rotate s).fileOpen = true := by rw [rotate_fileOpen]; exact hop
  have hbase : (rotate s).base = some [] := by rw [rotate_base]; simp [hop]
  have hcond : decide (s.maxFileSize < s.currentSize + (r.length + 1)) = true :=
    decide_eq_true h
  simp only [write, hlen, hcond, if_true, ite_true]
  simp [hfo, hbase, rotate_currentSize]

/-- The state of a sink whose base path cannot be opened and owns no files. -/
def deadSink (s : HandlerState) : Prop :=
  s.openable = false ∧ s.fileOpen = false ∧ s.currentSize = 0 ∧ s.base = none ∧
    ∀ j, s.backup j = none

theorem rotate_dead (s : HandlerState) (h : deadSink s) : deadSink (rotate s) := by
  obtain ⟨hop, hfo, hcs, hb, hbk⟩ := h
  rw [rotate_spec]
  refine ⟨hop, hop, rfl, by simp [hop], ?_⟩
  intro j
  show (fun j => (match s.base with
        | some c => if j = 1 then some c
            else shiftLoop (fun _ => false) (delOldest s.maxBackups s.backup) (s.maxBackups - 1) j
        | none => shiftLoop (fun _ => false) (delOldest s.maxBackups s.backup) (s.maxBackups - 1) j)) j = none
  rw [hb]
  exact shiftLoop_allnone _ _ _ (fun i => by unfold delOldest; simp [hbk]) j

theorem write_dead (s : HandlerState) (r : String) (h : deadSink s) :
    deadSink (write s r).1 := by
  simp only [write]
  split
  · have hd := rotate_dead s h
    split
    · rename_i h2
      rw [hd.2.1] at h2
      exact absurd h2 Bool.false_ne_true
    · exact hd
  · split
    · rename_i h2
      rw [h.2.1] at h2
      exact absurd h2 Bool.false_ne_true
    · exact h

theorem writeAll_dead (rs : List String) : ∀ s : HandlerState, deadSink s →
    deadSink (writeAll s rs) := by
  induction rs with
  | nil => intro s h; exact h
  | cons r rs ih =>
    intro s h
    show deadSink (writeAll (write s r).1 rs)
    exact ih _ (write_dead s r h)

-- ===== Claim theorems =====

/--
Claim C1: a write through the rotating file sink rotates if and only if the
tracked current size plus the length of `formatter(record) + newline`
strictly exceeds the max size; the rotation happens before the line is
written (the line lands alone in the fresh base file); a write whose line
makes the size exactly equal to the max does not rotate; and no other
schedule triggers rotation (the returned flag mirrors exactly this one test).
-/
theorem write_rotation_trigger (s : HandlerState) (r : String) :
    ((write s r).2 = true ↔ s.maxFileSize < s.currentSize + (r.length + 1))
    ∧ (r ++ "\n").length = r.length + 1
    ∧ (s.currentSize + (r.length + 1) = s.maxFileSize → (write s r).2 = false)
    ∧ ((write s r).2 = true → s.openable = true → (write s r).1.base = some [r ++ "\n"]) := by
  have hsnd := write_snd s r
  refine ⟨by rw [hsnd]; simp, by rw [String.length_append]; rfl, ?_, ?_⟩
  · intro hEq
    rw [hsnd]
    exact decide_eq_false (by omega)
  · intro hrot hop
    have hlt : s.maxFileSize < s.currentSize + (r.length + 1) := by
      rw [hsnd] at hrot
      simpa using hrot
    exact (write_state_rotating s r hlt hop).1

def c1ex : HandlerState :=
  { maxFileSize := 5, maxBackups := 1, openable := true, fileOpen := true,
    currentSize := 4, base := some ["abcd"], backup := fun _ => none }

/-- Witness for C1 at a concrete state: 4 + 3 > 5 rotates and the line lands alone. -/
theorem write_rotation_trigger_witness :
    (write c1ex "xy").2 = true ∧ (write c1ex "xy").1.base = some ["xy\n"] := by
  have h := write_rotation_trigger c1ex "xy"
  have hrot : (write c1ex "xy").2 = true := h.1.mpr (by decide)
  exact ⟨hrot, h.2.2.2 hrot rfl⟩

/--
Claim C2 counterexample: with max backup count `K = 0` the claimed bound
"at most K backup files exist" fails — one rotation of a state with no
backups still renames the base file to `<base>.1`, so a backup exists.
-/
def c2zero : HandlerState :=
  { maxFileSize := 10, maxBackups := 0, openable := true, fileOpen := true,
    currentSize := 1, base := some ["x"], backup := fun _ => none }

theorem rotate_zero_backups_counterexample :
    c2zero.maxBackups = 0 ∧ (∀ j, c2zero.backup j = none) ∧
    (rotate c2zero).backup 1 = some ["x"] :=
  ⟨rfl, fun _ => rfl, rfl⟩

/--
Claim C2 (amended to max backup count `K ≥ 1`): rotation preserves the
backup-chain shape (no `<base>.0`, nothing beyond `<base>.K`, hence at most
`K` backups); after a rotation `<base>.1` holds exactly the just-retired
base-file content; the chain shifts each backup `i` to `i + 1` (descending,
so nothing not yet moved is overwritten) for `1 ≤ i ≤ K - 1` — in
particular the old backup `K` is dropped; and the shape is preserved after
any number of rotations.
-/
theorem rotate_backup_chain_inv (s : HandlerState) (hK : 1 ≤ s.maxBackups)
    (hinv : backupsOnlyIn s.maxBackups s.backup) :
    backupsOnlyIn s.maxBackups (rotate s).backup
    ∧ (rotate s).backup 1 = s.base
    ∧ (∀ i, 1 ≤ i → i + 1 ≤ s.maxBackups → (rotate s).backup (i + 1) = s.backup i)
    ∧ (∀ j, s.maxBackups < j → (rotate s).backup j = none)
    ∧ (∀ n, backupsOnlyIn s.maxBackups ((rotate)^[n] s).backup) := by
  refine ⟨rotate_preserves_inv s hK hinv, rotate_backup_one s hK, ?_, ?_, ?_⟩
  · intro i h1 h2
    exact rotate_backup_shift s i h1 h2
  · intro j hj
    exact (rotate_preserves_inv s hK hinv).2 j hj
  · intro n
    exact rotate_iter_inv n s hK hinv

def c2ex : HandlerState :=
  { maxFileSize := 10, maxBackups := 2, openable := true, fileOpen := true,
    currentSize := 4, base := some ["mark"], backup := fun _ => none }

/-- Witness for C2 (amended) at a concrete state with `K = 2`. -/
theorem rotate_backup_chain_inv_witness :
    1 ≤ c2ex.maxBackups ∧ (rotate c2ex).backup 1 = some ["mark"] ∧
    (rotate c2ex).backup 0 = none ∧ (rotate c2ex).backup 3 = none := by
  have h := rotate_backup_chain_inv c2ex (by decide) ⟨rfl, fun j hj => rfl⟩
  refine ⟨by decide, ?_, h.1.1, h.2.2.2.1 3 (by decide)⟩
  rw [h.2.1]
  rfl

/--
Claim C3: a dispatched record is delivered to every registered sink iff its
severity is at least the dispatcher threshold (and invokes no sink
otherwise), under the severity ordering
TRACE < DEBUG3 < DEBUG2 < DEBUG1 < INFO < WARN < ERROR.
-/
theorem writeLog_threshold (α : Type) (comp : String) (T : LogLevel)
    (hs : List (LogEntry → α)) (S : LogLevel) (ts fn : String) (ln : Int) (msg : String) :
    writeLog comp T hs S ts fn ln msg
      = (if T.toNat ≤ S.toNat then
          hs.map (fun h => h { timestamp := ts, level := levelToString S,
                               component := comp, function := fn,
                               lineNumber := ln, message := msg })
        else [])
    ∧ (LogLevel.TRACE.toNat < LogLevel.DEBUG3.toNat
        ∧ LogLevel.DEBUG3.toNat < LogLevel.DEBUG2.toNat
        ∧ LogLevel.DEBUG2.toNat < LogLevel.DEBUG1.toNat
        ∧ LogLevel.DEBUG1.toNat < LogLevel.INFO.toNat
        ∧ LogLevel.INFO.toNat < LogLevel.WARN.toNat
        ∧ LogLevel.WARN.toNat < LogLevel.ERROR.toNat) := by
  constructor
  · simp only [writeLog, levelLt]
    by_cases h : S.toNat < T.toNat
    · rw [if_pos (by simp [h]), if_neg (by omega)]
    · rw [if_neg (by simp [h]), if_pos (by omega)]
  · decide

/--
Claim C4: constructing the sink against an existing base file seeds the byte
counter from that file's on-disk size (and from 0 when the file is absent),
and the first write then rotates iff seed + line length exceeds the max size.
-/
theorem mkHandler_seeds_size (M K : Nat) (c : List String)
    (bk : Nat → Option (List String)) (r : String) :
    (mkHandler M K true (some c) bk).currentSize = (c.map String.length).sum
    ∧ (mkHandler M K true none bk).currentSize = 0
    ∧ ((write (mkHandler M K true (some c) bk) r).2 = true
        ↔ M < (c.map String.length).sum + (r.length + 1)) := by
  refine ⟨rfl, rfl, ?_⟩
  rw [write_snd]
  simp [mkHandler, openFile]

/--
Claim C5 counterexample: the sink's default formatter does not render the
claimed `[timestamp][level left-padded to 6][component][function:line
left-padded to 20] message` shape — the level is padded on the right, and
the `function:line` field is not padded at all.
-/
def c5entry : LogEntry :=
  { timestamp := "t", level := "INFO", component := "c", function := "f",
    lineNumber := 7, message := "m" }

theorem defaultFormatter_counterexample :
    defaultFormatter c5entry = "[t][INFO  ][c][f:7] m"
    ∧ defaultFormatter c5entry ≠ claimedDefaultFormatter c5entry :=
  ⟨by decide, by decide⟩

/--
Claim C5 (amended): when no formatter is supplied the sink uses the default
formatter, which renders `[timestamp][level][component][function:line]`
followed by a space and the message, where the level field is left-justified
(space-padded on the right) to width 6 and the `function:line` field is
rendered unpadded.
-/
theorem defaultFormatter_amended (e : LogEntry) :
    defaultFormatter e = amendedDefaultFormatter e
    ∧ chooseFormatter none = defaultFormatter := by
  refine ⟨?_, rfl⟩
  unfold defaultFormatter amendedDefaultFormatter bracket bracketSp
  simp only [String.append_assoc]

/--
Claim C6 (the code at the failing input): with sub-second sample 5123 µs
(ms = 5, us = 123) the generated timestamp renders the milliseconds group
without zero padding — `.5123` instead of the claimed `.005123`.
-/
theorem timestamp_ms_unpadded :
    getCurrentTimestamp "2026-10-11 12:00:00" 5123 = "2026-10-11 12:00:00.5123"
    ∧ claimedTimestamp "2026-10-11 12:00:00" 5123 = "2026-10-11 12:00:00.005123"
    ∧ getCurrentTimestamp "2026-10-11 12:00:00" 5123
        ≠ claimedTimestamp "2026-10-11 12:00:00" 5123 :=
  ⟨by decide, by decide, by decide⟩

/--
Claim C7: after a rotation (with an openable base path) the running byte
counter is 0, the base path holds a fresh empty file, and the handle is open
— the first write after a rotation counts from zero against an empty file.
-/
theorem rotate_fresh_start (s : HandlerState) (h : s.openable = true) :
    (rotate s).currentSize = 0 ∧ (rotate s).base = some [] ∧ (rotate s).fileOpen = true := by
  refine ⟨rotate_currentSize s, ?_, ?_⟩
  · rw [rotate_base]
    simp [h]
  · rw [rotate_fileOpen]
    exact h

def c7ex : HandlerState :=
  { maxFileSize := 8, maxBackups := 3, openable := true, fileOpen := true,
    currentSize := 7, base := some ["0123456"], backup := fun _ => none }

/-- Witness for C7 at a concrete state. -/
theorem rotate_fresh_start_witness :
    c7ex.openable = true ∧ (rotate c7ex).currentSize = 0 ∧ (rotate c7ex).base = some [] := by
  have h := rotate_fresh_start c7ex rfl
  exact ⟨rfl, h.1, h.2.1⟩

/--
Claim C8: when the base path cannot be opened at construction, every
subsequent write is silently dropped — after any sequence of writes the byte
counter is still 0, no file content was produced (base absent, no backups),
and the handle stays closed; the sink is a no-op and (being a total
function) never raises into the caller.
-/
theorem unopenable_sink_noop (M K : Nat) (rs : List String) :
    (writeAll (mkHandler M K false none (fun _ => none)) rs).currentSize = 0
    ∧ (writeAll (mkHandler M K false none (fun _ => none)) rs).base = none
    ∧ (writeAll (mkHandler M K false none (fun _ => none)) rs).fileOpen = false
    ∧ ∀ j, (writeAll (mkHandler M K false none (fun _ => none)) rs).backup j = none := by
  have h0 : deadSink (mkHandler M K false none (fun _ => none)) :=
    ⟨rfl, rfl, rfl, rfl, fun j => rfl⟩
  have h := writeAll_dead rs _ h0
  exact ⟨h.2.2.1, h.2.2.2.1, h.2.1, h.2.2.2.2⟩

/--
Claim C9 (the code at the failing input): no rotation ever emits a
diagnostic line (the `catch` that would print to `std::cerr` is unreachable
because `std::remove`/`std::rename` report failure only via their ignored
return values), shown here together with a concrete failed rotation: the
rename of the base file to `<base>.1` fails, nothing is reported, the failed
step is skipped (no backup created, base content kept), and the pending
write is still performed against the remaining file state.
-/
def c9state : HandlerState :=
  { maxFileSize := 10, maxBackups := 2, openable := true, fileOpen := true,
    currentSize := 9, base := some ["old"], backup := fun _ => none }

def c9oracle : RotOracle :=
  { removeFails := false, renameFails := fun _ => false, baseRenameFails := true }

theorem rotation_failure_silent :
    (∀ (o : RotOracle) (s : HandlerState), (rotateO o s).2 = [])
    ∧ (rotateO c9oracle c9state).1.base = some ["old"]
    ∧ (rotateO c9oracle c9state).1.backup 1 = none
    ∧ (writeO c9oracle c9state "xxxxxxxx").2 = []
    ∧ (writeO c9oracle c9state "xxxxxxxx").1.base = some ["old", "xxxxxxxx\n"] :=
  ⟨fun _ _ => rfl, rfl, rfl, rfl, rfl⟩

/--
Claim C10: a record whose rendered line is by itself longer than the max
size still triggers a rotation and is then written whole — unsplit and
untruncated — to the fresh base file, the counter is incremented by the full
line length, and the tracked size therefore exceeds the max size.
-/
theorem oversized_line_unsplit (s : HandlerState) (r : String)
    (hlen : s.maxFileSize < r.length + 1) (hop : s.openable = true) :
    (write s r).2 = true
    ∧ (write s r).1.base = some [r ++ "\n"]
    ∧ (write s r).1.currentSize = r.length + 1
    ∧ s.maxFileSize < (write s r).1.currentSize := by
  have hbig : s.maxFileSize < s.currentSize + (r.length + 1) := by omega
  have hw := write_state_rotating s r hbig hop
  refine ⟨?_, hw.1, hw.2, ?_⟩
  · rw [write_snd]
    exact decide_eq_true hbig
  · rw [hw.2]
    omega

def c10ex : HandlerState :=
  { maxFileSize := 3, maxBackups := 1, openable := true, fileOpen := true,
    currentSize := 2, base := some ["ab"], backup := fun _ => none }

/-- Witness for C10 at a concrete state: a 6-byte line against max size 3. -/
theorem oversized_line_unsplit_witness :
    c10ex.maxFileSize < "abcde".length + 1
    ∧ (write c10ex "abcde").1.base = some ["abcde\n"]
    ∧ c10ex.maxFileSize < (write c10ex "abcde").1.currentSize := by
  have h := oversized_line_unsplit c10ex "abcde" (by decide) rfl
  exact ⟨by decide, h.2.1, h.2.2.2⟩
